import Mathlib

/-!
Shallow embedding of the path-resolution core of the repository
(package `paths`: `FindPath` and `comparePaths`), together with models of
the Go standard-library routines it calls (`strings.Split`,
`strings.Contains`, `strconv.ParseFloat`, `filepath.Join` on Unix) and of
the small constants it takes from the sibling `helpers` package.

Strings are modelled as Lean `String`s and Go byte positions as character
positions (all inputs of interest are ASCII, where the two coincide).
Go run-time panics (out-of-range slicing) are modelled by `Option`:
a function returns `none` exactly when the Go original panics.
-/

set_option autoImplicit false
set_option maxRecDepth 8192

namespace Paths

/-! ## Models of Go standard-library string routines -/

/-- Splitting a character list at every `'/'`.  `splitData []` is `[[]]`,
matching `strings.Split("", "/") = [""]`; in general the result is the list
of (possibly empty) chunks between separators. -/
def splitData : List Char → List (List Char)
  | [] => [[]]
  | c :: rest =>
    if c = '/' then [] :: splitData rest
    else
      match splitData rest with
      | [] => [[c]]
      | g :: gs => (c :: g) :: gs

/-- Model of Go `strings.Split(s, "/")`. -/
def splitSlash (s : String) : List String :=
  (splitData s.data).map (fun l => ⟨l⟩)

/-- The Go code drops a leading empty segment produced by a leading slash:
`if segs[0] == "" { segs = segs[1:] }`.  (`strings.Split` never returns an
empty slice, so the `[]` case below is unreachable from `splitSlash`.) -/
def dropLeadingEmpty : List String → List String
  | "" :: rest => rest
  | l => l

/-- Joining character chunks with `'/'` between consecutive chunks,
the character-level core of `strings.Join(elems, "/")`. -/
def joinData : List (List Char) → List Char
  | [] => []
  | [a] => a
  | a :: rest => a ++ '/' :: joinData rest

/-- Model of Go `strings.Join(elems, "/")`. -/
def joinSlash (l : List String) : String :=
  ⟨joinData (l.map String.data)⟩

/-- Whether a path string is rooted (begins with the separator), as tested
by `filepath.Clean` on Unix. -/
def isRooted (s : String) : Bool :=
  match s.data with
  | c :: _ => c = '/'
  | [] => false

/-- The element-processing loop of `filepath.Clean` (Unix) over the
slash-separated components of the path, with `acc` the kept components in
reverse order: empty and `"."` components are dropped; `".."` pops the
previous component when one is available and it is not itself `".."`,
is dropped at the root of a rooted path, and is kept otherwise. -/
def cleanAcc (rooted : Bool) : List String → List String → List String
  | [], acc => acc.reverse
  | c :: rest, acc =>
    if c = "" ∨ c = "." then cleanAcc rooted rest acc
    else if c = ".." then
      match acc with
      | [] => if rooted then cleanAcc rooted rest [] else cleanAcc rooted rest [".."]
      | t :: acc' =>
        if t = ".." then cleanAcc rooted rest (".." :: t :: acc')
        else cleanAcc rooted rest acc'
    else cleanAcc rooted rest (c :: acc)

/-- Model of Go `filepath.Clean` on Unix: normalize separators, drop `"."`
components, cancel `".."` components, and return `"."` for an empty
relative result (`"/"` for an emptied rooted path). -/
def goClean (s : String) : String :=
  if isRooted s then ⟨'/' :: (joinSlash (cleanAcc true (splitSlash s) [])).data⟩
  else if cleanAcc false (splitSlash s) [] = [] then "."
  else joinSlash (cleanAcc false (splitSlash s) [])

/-- Model of Go `filepath.Join(elems...)` on Unix: skip to the first
non-empty element, join the elements from there with `"/"`, and `Clean`
the result; all-empty input yields `""`. -/
def goJoin (elems : List String) : String :=
  match elems.dropWhile (fun e => e = "") with
  | [] => ""
  | es => goClean (joinSlash es)

/-- Model of the Go string slicing `seg[1 : len(seg)-1]` (defined value for
segments of length at least two; the caller models the panic otherwise). -/
def stripEnds (s : String) : String :=
  ⟨(s.data.drop 1).dropLast⟩

/-! ## Model of `strconv.ParseFloat(s, 64)` success

`ParseFloat` returns a nil error exactly when the whole string is
consumed by the float syntax — either a special value (`inf`,
`infinity`, optionally signed, or `nan`, case-insensitively) or a
decimal / hexadecimal mantissa with optional exponent, with underscores
placed only between digits — and the represented value fits the finite
range of a 64-bit float.  Overflow is the only non-syntax error
(`ErrRange`, when the exact magnitude is at least `2^1024 - 2^970`, the
point from which round-to-nearest-even yields infinity); underflow
returns zero with a nil error. -/

/-- ASCII lower-casing by setting bit `0x20`, as Go `strconv`'s `lower`. -/
def lowerChar (c : Char) : Char :=
  Char.ofNat (c.toNat ||| 32)

/-- Decimal digit test. -/
def isDigit (c : Char) : Bool :=
  decide ('0' ≤ c ∧ c ≤ '9')

/-- Hexadecimal letter test (`a`–`f`, case-insensitive). -/
def isHexLetter (c : Char) : Bool :=
  decide ('a' ≤ lowerChar c ∧ lowerChar c ≤ 'f')

/-- Full-string match of the special float values: after an optional sign,
`inf` or `infinity`; or (unsigned only) `nan`; all case-insensitive.
Matches `strconv`'s `special` combined with the whole-string check. -/
def specialFull (l : List Char) : Bool :=
  match l with
  | [] => false
  | c :: rest =>
    if c = '+' ∨ c = '-' then
      let m := rest.map lowerChar
      m = ['i', 'n', 'f'] ∨ m = ['i', 'n', 'f', 'i', 'n', 'i', 't', 'y']
    else
      let m := l.map lowerChar
      m = ['i', 'n', 'f'] ∨ m = ['i', 'n', 'f', 'i', 'n', 'i', 't', 'y'] ∨
        m = ['n', 'a', 'n']

/-- Value of a decimal digit character. -/
def digitVal (c : Char) : Nat := c.toNat - 48

/-- Value of a hexadecimal digit character (decimal digit or `a`–`f`
letter of either case). -/
def hexVal (c : Char) : Nat :=
  if isDigit c then c.toNat - 48 else (lowerChar c).toNat - 87

/-- The mantissa scanning loop of `strconv`'s `readFloat`: consumes
underscores, at most one dot, decimal digits, and (for hex) hex letters,
accumulating the scanned digits into the mantissa integer `m` and
counting in `fr` the digits after the dot; returns the unconsumed rest,
whether a digit was seen, whether an underscore was seen, the mantissa,
and the fraction-digit count. -/
def mantScan (hex : Bool) : List Char → Bool → Bool → Bool → Nat → Nat →
    List Char × Bool × Bool × Nat × Nat
  | [], _, sd, su, m, fr => ([], sd, su, m, fr)
  | c :: rest, sawdot, sd, su, m, fr =>
    if c = '_' then mantScan hex rest sawdot sd true m fr
    else if c = '.' then
      if sawdot then (c :: rest, sd, su, m, fr)
      else mantScan hex rest true sd su m fr
    else if isDigit c then
      mantScan hex rest sawdot true su
        ((if hex then 16 else 10) * m + digitVal c)
        (if sawdot then fr + 1 else fr)
    else if hex ∧ isHexLetter c then
      mantScan hex rest sawdot true su (16 * m + hexVal c)
        (if sawdot then fr + 1 else fr)
    else (c :: rest, sd, su, m, fr)

/-- The exponent-digit loop of `readFloat`: after the first exponent
digit, only digits and underscores may follow, through the end of the
string; the exponent value accumulates with the source's `e < 10000`
growth cap (past which further digits cannot change any range
decision). -/
def expTail : List Char → Bool → Nat → Bool × Bool × Nat
  | [], su, e => (true, su, e)
  | c :: rest, su, e =>
    if c = '_' then expTail rest true e
    else if isDigit c then
      expTail rest su (if e < 10000 then e * 10 + digitVal c else e)
    else (false, su, e)

/-- The underscore-placement check of `strconv.underscoreOK`, threaded over
the characters with `saw` remembering the class of the previous character
(`'^'` start, `'0'` digit or base prefix, `'_'` underscore, `'!'` other). -/
def underscoreLoop (hex : Bool) : List Char → Char → Bool
  | [], saw => decide (saw ≠ '_')
  | c :: rest, saw =>
    if isDigit c ∨ (hex ∧ isHexLetter c) then underscoreLoop hex rest '0'
    else if c = '_' then
      if saw ≠ '0' then false else underscoreLoop hex rest '_'
    else if saw = '_' then false
    else underscoreLoop hex rest '!'

/-- Model of Go `strconv.underscoreOK(s)`: underscores may appear only
between digits (or between a base prefix and a digit). -/
def underscoreOK (l : List Char) : Bool :=
  let l1 := match l with
    | c :: rest => if c = '-' ∨ c = '+' then rest else l
    | [] => []
  match l1 with
  | a :: b :: rest =>
    if a = '0' ∧ (lowerChar b = 'b' ∨ lowerChar b = 'o' ∨ lowerChar b = 'x') then
      underscoreLoop (lowerChar b = 'x') rest '0'
    else underscoreLoop false l1 '^'
  | _ => underscoreLoop false l1 '^'

/-- Full-string match of `readFloat`'s numeric syntax: optional sign,
optional `0x` prefix, mantissa with at least one digit, then either the
end of the string (decimal only; hex requires an exponent) or a `p`/`e`
exponent with optional sign and at least one digit, running to the end;
any underscores must pass `underscoreOK` on the whole string.  On
success, returns whether the literal is hexadecimal, the mantissa
integer `m`, and the exponent `e` such that the represented magnitude is
`m * b ^ e` with `b = 2` for hex and `b = 10` for decimal literals. -/
def numParse (l : List Char) : Option (Bool × Nat × Int) :=
  match l with
  | [] => none
  | _ =>
    let s1 := match l with
      | c :: r => if c = '+' ∨ c = '-' then r else l
      | [] => []
    let hex : Bool := match s1 with
      | a :: b :: _ => decide (a = '0' ∧ lowerChar b = 'x')
      | _ => false
    let s2 := if hex then s1.drop 2 else s1
    match mantScan hex s2 false false false 0 0 with
    | (rest, sawdigits, su1, m, fr) =>
      if ¬ sawdigits then none
      else
        let expChar := if hex then 'p' else 'e'
        match rest with
        | [] =>
          if hex then none
          else if su1 ∧ ¬ underscoreOK l then none
          else some (false, m, -(fr : Int))
        | c :: r2 =>
          if lowerChar c = expChar then
            let esign : Int := match r2 with
              | d :: _ => if d = '-' then -1 else 1
              | [] => 1
            let r4 := match r2 with
              | d :: r3 => if d = '+' ∨ d = '-' then r3 else r2
              | [] => []
            match r4 with
            | [] => none
            | e0 :: _ =>
              if ¬ isDigit e0 then none
              else
                match expTail r4 su1 0 with
                | (true, su2, e) =>
                  if su2 ∧ ¬ underscoreOK l then none
                  else if hex then some (true, m, esign * (e : Int) - 4 * (fr : Int))
                  else some (false, m, esign * (e : Int) - (fr : Int))
                | (false, _, _) => none
          else none

/-- The float64 overflow predicate of `ParseFloat` (its `ErrRange`): the
exact magnitude `m * b ^ e` is at least `2^1024 - 2^970`, written as
`2^970 * (2^54 - 1)`, the midpoint above the largest finite 64-bit float
from which round-to-nearest-even yields infinity. -/
def overflows (hex : Bool) (m : Nat) (e : Int) : Bool :=
  match e with
  | Int.ofNat n =>
    decide (2 ^ 970 * (2 ^ 54 - 1) ≤ m * (if hex then 2 else 10) ^ n)
  | Int.negSucc n =>
    decide (2 ^ 970 * (2 ^ 54 - 1) * (if hex then 2 else 10) ^ (n + 1) ≤ m)

/-- Model of success of Go `strconv.ParseFloat(s, 64)` (a nil error): a
special value, or well-formed numeric syntax whose exact value does not
overflow float64.  Underflow is not an error, so no lower bound
applies. -/
def parseFloatOk (s : String) : Bool :=
  specialFull s.data ||
    match numParse s.data with
    | none => false
    | some (hex, m, e) => ! overflows hex m e

/-! ## Constants from the sibling `helpers` package

The `helpers` package is a dependency of this repository that is not part
of the source under study; its constants are modelled from the spec. -/

/-- Modelled from the spec: `helpers.ParameterValidationPath`, the
validation-type tag of path errors — the spec tags the missing-path error
as kind `path`. -/
def ParameterValidationPath : String := "path"

/-- Modelled from the spec: `helpers.Path`, the `in` location value of
path-located parameter specs. -/
def PathLocation : String := "path"

/-- Modelled from the spec: `helpers.String`, the declared primitive type
`string`. -/
def StringType : String := "string"

/-- Modelled from the spec: `helpers.Number`, the declared primitive type
`number`. -/
def NumberType : String := "number"

/-- Modelled from the spec: `helpers.Integer`, the declared primitive type
`integer`. -/
def IntegerType : String := "integer"

/-! ## Data model -/

/-- The resolved schema of a parameter: only its declared type list
(`schema.Type`) is consulted by the resolver (`Type` is a Lean keyword,
hence the primed field name). -/
structure Schema where
  Type' : List String
  deriving DecidableEq, Repr

/-- A parameter spec (`v3.Parameter`): name, location (`In`), and resolved
schema. -/
structure Parameter where
  Name : String
  In : String
  Schema : Schema
  deriving DecidableEq, Repr

/-- An operation entry (`v3.Operation`): only its parameter list is
consulted by the resolver. -/
structure Operation where
  Parameters : List Parameter
  deriving DecidableEq, Repr

/-- A path item (`v3.PathItem`): the per-method operations and the
path-level shared parameters. -/
structure PathItem where
  Get : Option Operation := none
  Post : Option Operation := none
  Put : Option Operation := none
  Delete : Option Operation := none
  Options : Option Operation := none
  Head : Option Operation := none
  Patch : Option Operation := none
  Trace : Option Operation := none
  Parameters : List Parameter := []
  deriving DecidableEq, Repr

/-- The contract document: its mapping from path templates to path items,
as the sequence of entries in one iteration order of the Go map
`document.Paths.PathItems` (Go map iteration order is not fixed; it is an
explicit input here). -/
structure Document where
  PathItems : List (String × PathItem)
  deriving DecidableEq, Repr

/-- A structured validation error (`errors.ValidationError`), restricted
to the fields the resolver sets. -/
structure ValidationError where
  ValidationType : String
  ValidationSubType : String
  Message : String
  Reason : String
  SpecLine : Int
  SpecCol : Int
  deriving DecidableEq, Repr

/-! ## comparePaths -/

/-- The sentinel the resolver substitutes for a type-violating parameter
value. -/
def FailToken : String := "&&FAIL&&"

/-- The inner loop over `schema.Type` of `comparePaths`: a `string` type
replaces a float-parsing value with the sentinel; a `number` or `integer`
type replaces a non-float-parsing value with the sentinel. -/
def typeLoop : List String → String → String
  | [], s => s
  | t :: rest, s =>
    typeLoop rest
      (if t = StringType then
        if parseFloatOk s then FailToken else s
      else if t = NumberType ∨ t = IntegerType then
        if parseFloatOk s then s else FailToken
      else s)

/-- The loop over `params` of `comparePaths` for one segment, threading the
candidate value `s`.  For every path-located parameter the Go code slices
`seg[1 : len(seg)-1]` before comparing names, which panics (`none`) when
the segment is shorter than two characters. -/
def paramLoop : List Parameter → String → String → Option String
  | [], _, s => some s
  | p :: rest, seg, s =>
    if p.In = PathLocation then
      if seg.data.length < 2 then none
      else if p.Name = stripEnds seg then
        paramLoop rest seg (typeLoop p.Schema.Type' s)
      else paramLoop rest seg s
    else paramLoop rest seg s

/-- The per-segment body of `comparePaths`: the candidate value is the
requested segment when the template segment contains a brace
(`strings.Contains(seg, "{")`) and the template segment itself otherwise,
then the parameter loop runs on it. -/
def checkSeg (seg req : String) (params : List Parameter) : Option String :=
  paramLoop params seg (if seg.data.contains '{' then req else seg)

/-- The segment loop of `comparePaths`, producing the `imploded`
component list (`none` propagates a panic; the mismatched-length final
case models Go's out-of-range index and is unreachable from
`comparePaths`, which checks the lengths first). -/
def implode (params : List Parameter) : List String → List String → Option (List String)
  | [], _ => some []
  | seg :: ms, req :: rs => do
    let s ← checkSeg seg req params
    let rest ← implode params ms rs
    pure (s :: rest)
  | _ :: _, [] => none

/-- Model of `comparePaths`: reject on differing segment counts, otherwise
build the imploded components and compare the `filepath.Join` of the
imploded components with that of the requested segments.  The structured
error list is always empty (the error construction in the source is
commented out); `none` models a panic. -/
def comparePaths (mapped requested : List String) (params : List Parameter)
    (path : String) : Option (Bool × List ValidationError) :=
  if mapped.length ≠ requested.length then some (false, [])
  else
    match implode params mapped requested with
    | none => none
    | some imploded =>
      if goJoin imploded = goJoin requested then some (true, [])
      else some (false, [])

/-! ## FindPath -/

/-- The per-method operation lookup: the Go `switch request.Method` with
one case per HTTP method constant; any other method falls through the
switch and matches nothing. -/
def operationFor (method : String) (item : PathItem) : Option Operation :=
  if method = "GET" then item.Get
  else if method = "POST" then item.Post
  else if method = "PUT" then item.Put
  else if method = "DELETE" then item.Delete
  else if method = "OPTIONS" then item.Options
  else if method = "HEAD" then item.Head
  else if method = "PATCH" then item.Patch
  else if method = "TRACE" then item.Trace
  else none

/-- The single missing-path error built by `FindPath` when no template
matched, with the sentinel location `(-1, -1)`. -/
def missingError (urlPath : String) : ValidationError :=
  let q : String := ⟨[Char.ofNat 39]⟩
  { ValidationType := ParameterValidationPath
    ValidationSubType := "missing"
    Message := "Path " ++ q ++ urlPath ++ q ++ " not found"
    Reason := "The request contains a path of " ++ q ++ urlPath ++ q ++
      " however that path does not exist in the specification"
    SpecLine := -1
    SpecCol := -1 }

/-- The template loop of `FindPath` over the contract's entries in the
given iteration order.  Each of the eight per-method branches in the
source is the same code over its method's operation field (modelled by
`operationFor`), except that the POST branch discards the (always empty)
error slice returned by `comparePaths`.  Returns `some none` when every
template was skipped, `some (some (item, errs, path))` on a match, and
`none` when `comparePaths` panicked. -/
def findLoop (method urlPath : String) (reqSegs : List String) :
    List (String × PathItem) → Option (Option (PathItem × List ValidationError × String))
  | [] => some none
  | (path, pathItem) :: rest =>
    match operationFor method pathItem with
    | none => findLoop method urlPath reqSegs rest
    | some op =>
      if urlPath = path then some (some (pathItem, [], path))
      else
        match comparePaths (dropLeadingEmpty (splitSlash path)) reqSegs
            (pathItem.Parameters ++ op.Parameters) urlPath with
        | none => none
        | some (ok, errs) =>
          if ok then
            some (some (pathItem, if method = "POST" then [] else errs, path))
          else findLoop method urlPath reqSegs rest

/-- Model of `FindPath`: split the requested path into segments (dropping
a leading empty segment), run the template loop, and on fall-through
return a null item with the single missing-path error and an empty found
path.  `none` models a panic escaping `FindPath`. -/
def FindPath (method urlPath : String) (document : Document) :
    Option (Option PathItem × List ValidationError × String) :=
  match findLoop method urlPath (dropLeadingEmpty (splitSlash urlPath))
      document.PathItems with
  | none => none
  | some none => some (none, [missingError urlPath], "")
  | some (some (item, errs, fp)) => some (some item, errs, fp)

/-- The condition under which the template loop passes over a contract
entry without matching and without panicking: either the entry has no
operation for the method, or the request path is not byte-identical to
the template and the structural comparison returns a clean no-match. -/
def skipsEntry (method urlPath : String) (reqSegs : List String)
    (e : String × PathItem) : Prop :=
  match operationFor method e.2 with
  | none => True
  | some op =>
    urlPath ≠ e.1 ∧
      comparePaths (dropLeadingEmpty (splitSlash e.1)) reqSegs
        (e.2.Parameters ++ op.Parameters) urlPath = some (false, [])

/-! ## Concrete contract fixtures -/

/-- A path parameter named `id` declared `integer`. -/
def paramIdInt : Parameter :=
  { Name := "id", In := PathLocation, Schema := { Type' := [IntegerType] } }

/-- The path item of the template `/a/{id}`: a GET operation declaring the
path parameter `id`. -/
def shortSegItem : PathItem :=
  { Get := some { Parameters := [paramIdInt] } }

/-- A contract whose single template `/a/{id}` has a one-character literal
segment and a path-located parameter. -/
def docShortSeg : Document :=
  ⟨[("/a/{id}", shortSegItem)]⟩

/-- Parameters of the literal-collision fixture: a path parameter `b`
declared `integer` — its name is the interior of the literal segment
`abc` — and a path parameter `n` declared `string`. -/
def paramsClash : List Parameter :=
  [{ Name := "b", In := PathLocation, Schema := { Type' := [IntegerType] } },
   { Name := "n", In := PathLocation, Schema := { Type' := [StringType] } }]

/-- The path item of the template `/abc/{n}`: a GET operation declaring
the clashing parameters. -/
def clashItem : PathItem :=
  { Get := some { Parameters := paramsClash } }

/-- A contract whose single template `/abc/{n}` carries a path parameter
named after the interior of the literal segment `abc`. -/
def docClash : Document :=
  ⟨[("/abc/{n}", clashItem)]⟩

/-- The path item of the template `/items/{id}`: a GET operation declaring
the integer path parameter `id`. -/
def itemsItem : PathItem :=
  { Get := some { Parameters := [paramIdInt] } }

/-- A contract with the single template `/items/{id}`. -/
def docItems : Document :=
  ⟨[("/items/{id}", itemsItem)]⟩

/-- The path item of the template `/pets/{petId}`: a GET operation with
the string path parameter `petId`. -/
def petsIdItem : PathItem :=
  { Get := some { Parameters :=
      [{ Name := "petId", In := PathLocation, Schema := { Type' := [StringType] } }] } }

/-- The path item of the literal template `/pets/mine`: a GET operation
with no parameters. -/
def petsMineItem : PathItem :=
  { Get := some { Parameters := [] } }

/-- A contract declaring `/pets/{petId}` before `/pets/mine`. -/
def docPets : Document :=
  ⟨[("/pets/{petId}", petsIdItem), ("/pets/mine", petsMineItem)]⟩

/-- The same contract entries in the opposite iteration order. -/
def docPetsRev : Document :=
  ⟨[("/pets/mine", petsMineItem), ("/pets/{petId}", petsIdItem)]⟩

/-- A path item with a parameterless GET operation. -/
def emptyKeyItem : PathItem :=
  { Get := some { Parameters := [] } }

/-- A contract whose single template is the empty string. -/
def docEmptyKey : Document :=
  ⟨[("", emptyKeyItem)]⟩

/-- A path item with a POST operation only. -/
def noGetItem : PathItem :=
  { Post := some { Parameters := [] } }

/-- A contract whose first template has no GET operation and whose second
is the literal `/pets/mine`. -/
def docSkipThenLiteral : Document :=
  ⟨[("/zz", noGetItem), ("/pets/mine", petsMineItem)]⟩

/-! ## Helper lemmas on the string models -/

/-- A nonempty string has a nonempty character list. -/
theorem data_head_of_ne {a : String} (ha : a ≠ "") : ∃ c t, a.data = c :: t := by
  cases hd : a.data with
  | nil => exact absurd (String.ext (by simpa using hd)) ha
  | cons c t => exact ⟨c, t, rfl⟩

/-- Splitting a slash-free chunk yields just that chunk. -/
theorem splitData_no_slash {l : List Char} (h : '/' ∉ l) : splitData l = [l] := by
  induction l with
  | nil => rfl
  | cons c rest ih =>
    have hc : c ≠ '/' := fun hc => h (hc ▸ List.mem_cons_self c rest)
    have hr : '/' ∉ rest := fun hm => h (List.mem_cons_of_mem c hm)
    rw [splitData, if_neg hc, ih hr]

/-- Splitting after a slash-free prefix peels off that prefix. -/
theorem splitData_append {l r : List Char} (h : '/' ∉ l) :
    splitData (l ++ '/' :: r) = l :: splitData r := by
  induction l with
  | nil => simp [splitData]
  | cons c rest ih =>
    have hc : c ≠ '/' := fun hc => h (hc ▸ List.mem_cons_self c rest)
    have hr : '/' ∉ rest := fun hm => h (List.mem_cons_of_mem c hm)
    rw [List.cons_append, splitData, if_neg hc, ih hr]

/-- Appending to a string on the left is injective. -/
theorem string_append_right_inj {a x y : String} (h : a ++ x = a ++ y) : x = y := by
  apply String.ext
  have hd := congrArg String.data h
  rw [String.data_append, String.data_append] at hd
  exact List.append_cancel_left hd

/-- The `filepath.Join` of two clean components (nonempty, slash-free, and
not `"."` or `".."`) is just their slash-separated concatenation. -/
theorem goJoin_pair {a b : String} (ha0 : a ≠ "") (hb0 : b ≠ "")
    (ha : '/' ∉ a.data) (hb : '/' ∉ b.data)
    (ha1 : a ≠ ".") (ha2 : a ≠ "..") (hb1 : b ≠ ".") (hb2 : b ≠ "..") :
    goJoin [a, b] = a ++ "/" ++ b := by
  obtain ⟨c, t, hd⟩ := data_head_of_ne ha0
  have hc : c ≠ '/' := fun hcc => ha (by rw [hd]; exact hcc ▸ List.mem_cons_self _ _)
  have hdata : (a ++ "/" ++ b).data = a.data ++ '/' :: b.data := by
    rw [String.data_append, String.data_append]
    show a.data ++ ['/'] ++ b.data = _
    simp
  have hdrop : ([a, b].dropWhile fun e => e = "") = [a, b] := by
    simp [List.dropWhile_cons, ha0]
  have hjoin : joinSlash [a, b] = ⟨a.data ++ '/' :: b.data⟩ := rfl
  have hroot : isRooted ⟨a.data ++ '/' :: b.data⟩ = false := by
    rw [isRooted]
    simp only [hd, List.cons_append]
    simpa using hc
  have hsplit : splitSlash (⟨a.data ++ '/' :: b.data⟩ : String) = [a, b] := by
    show (splitData (a.data ++ '/' :: b.data)).map (fun l => (⟨l⟩ : String)) = _
    rw [splitData_append ha, splitData_no_slash hb]
    rfl
  have hna : ¬ (a = "" ∨ a = ".") := by simp [ha0, ha1]
  have hnb : ¬ (b = "" ∨ b = ".") := by simp [hb0, hb1]
  have hclean : cleanAcc false [a, b] [] = [a, b] := by
    rw [cleanAcc, if_neg hna, if_neg ha2, cleanAcc, if_neg hnb, if_neg hb2, cleanAcc]
    rfl
  rw [goJoin]
  rw [hdrop]
  show goClean (joinSlash [a, b]) = _
  rw [hjoin, goClean, hroot, if_neg (by simp), hsplit, hclean]
  · rw [if_neg (by simp), hjoin]
    exact String.ext hdata.symm

/-- `comparePaths` never produces structured errors: the error-building
code in the source is commented out. -/
theorem comparePaths_errors {mapped requested : List String}
    {params : List Parameter} {path : String} {b : Bool}
    {e : List ValidationError}
    (h : comparePaths mapped requested params path = some (b, e)) : e = [] := by
  unfold comparePaths at h
  split at h
  · simp only [Option.some.injEq, Prod.mk.injEq] at h
    exact h.2.symm
  · split at h
    · exact absurd h (by simp)
    · split at h <;>
        · simp only [Option.some.injEq, Prod.mk.injEq] at h
          exact h.2.symm

/-! ## Helper lemmas on the template loop -/

/-- The template loop passes over a skipped entry. -/
theorem findLoop_cons_skip {method urlPath : String} {reqSegs : List String}
    {e : String × PathItem} {l : List (String × PathItem)}
    (h : skipsEntry method urlPath reqSegs e) :
    findLoop method urlPath reqSegs (e :: l) = findLoop method urlPath reqSegs l := by
  obtain ⟨path, pathItem⟩ := e
  cases hop : operationFor method pathItem with
  | none => simp only [findLoop, hop]
  | some op =>
    simp only [skipsEntry, hop] at h
    simp only [findLoop, hop, if_neg h.1, h.2, if_neg Bool.false_ne_true]

/-- The template loop falls through (returning `some none`) exactly when
every entry is skipped. -/
theorem findLoop_eq_skipAll {method urlPath : String} {reqSegs : List String}
    {l : List (String × PathItem)} :
    findLoop method urlPath reqSegs l = some none ↔
      ∀ e ∈ l, skipsEntry method urlPath reqSegs e := by
  induction l with
  | nil => simp [findLoop]
  | cons e rest ih =>
    obtain ⟨path, pathItem⟩ := e
    constructor
    · intro h
      cases hop : operationFor method pathItem with
      | none =>
        have hrec : findLoop method urlPath reqSegs rest = some none := by
          simpa only [findLoop, hop] using h
        intro e' he'
        rcases List.mem_cons.mp he' with rfl | hmem
        · simp [skipsEntry, hop]
        · exact ih.mp hrec e' hmem
      | some op =>
        by_cases hu : urlPath = path
        · simp [findLoop, hop, if_pos hu] at h
        · cases hcp : comparePaths (dropLeadingEmpty (splitSlash path)) reqSegs
              (pathItem.Parameters ++ op.Parameters) urlPath with
          | none => simp [findLoop, hop, if_neg hu, hcp] at h
          | some pr =>
            obtain ⟨ok, errs⟩ := pr
            cases ok with
            | true => simp [findLoop, hop, if_neg hu, hcp] at h
            | false =>
              have herrs : errs = [] := comparePaths_errors hcp
              subst herrs
              have hrec : findLoop method urlPath reqSegs rest = some none := by
                simpa only [findLoop, hop, if_neg hu, hcp, if_neg Bool.false_ne_true] using h
              intro e' he'
              rcases List.mem_cons.mp he' with rfl | hmem
              · simp only [skipsEntry, hop]
                exact ⟨hu, hcp⟩
              · exact ih.mp hrec e' hmem
    · intro hall
      rw [findLoop_cons_skip (hall _ (List.mem_cons_self _ _))]
      exact ih.mpr fun e' he' => hall e' (List.mem_cons_of_mem _ he')

/-- A successful template loop returns an entry of the list, and that
entry's item has an operation for the method. -/
theorem findLoop_found {method urlPath : String} {reqSegs : List String}
    {l : List (String × PathItem)} {item : PathItem}
    {errs : List ValidationError} {fp : String}
    (h : findLoop method urlPath reqSegs l = some (some (item, errs, fp))) :
    (fp, item) ∈ l ∧ operationFor method item ≠ none := by
  induction l with
  | nil => simp [findLoop] at h
  | cons e rest ih =>
    obtain ⟨path, pathItem⟩ := e
    cases hop : operationFor method pathItem with
    | none =>
      have := ih (by simpa only [findLoop, hop] using h)
      exact ⟨List.mem_cons_of_mem _ this.1, this.2⟩
    | some op =>
      by_cases hu : urlPath = path
      · have hinj : pathItem = item ∧ ([] : List ValidationError) = errs ∧ path = fp := by
          simpa [findLoop, hop, if_pos hu] using h
        obtain ⟨h1, _, h3⟩ := hinj
        subst h1; subst h3
        exact ⟨List.mem_cons_self _ _, by simp [hop]⟩
      · cases hcp : comparePaths (dropLeadingEmpty (splitSlash path)) reqSegs
            (pathItem.Parameters ++ op.Parameters) urlPath with
        | none => simp [findLoop, hop, if_neg hu, hcp] at h
        | some pr =>
          obtain ⟨ok, errs'⟩ := pr
          cases ok with
          | false =>
            have hh : findLoop method urlPath reqSegs rest = some (some (item, errs, fp)) := by
              simpa only [findLoop, hop, if_neg hu, hcp, if_neg Bool.false_ne_true] using h
            have := ih hh
            exact ⟨List.mem_cons_of_mem _ this.1, this.2⟩
          | true =>
            have hinj : pathItem = item ∧
                (if method = "POST" then [] else errs') = errs ∧ path = fp := by
              simpa [findLoop, hop, if_neg hu, hcp] using h
            obtain ⟨h1, _, h3⟩ := hinj
            subst h1; subst h3
            exact ⟨List.mem_cons_self _ _, by simp [hop]⟩

/-! ## Claim theorems -/

/-- Claim C1: the resolution of `GET /a/5` against a contract whose only
template is `/a/{id}` with a path-located parameter panics (the model
returns the panic marker `none`): inside the structural match, the Go
code slices `seg[1:len(seg)-1]` on the one-character literal segment `a`,
which is out of range.  The spec states the resolver never raises fatal
errors, so this evaluates the code at the failing input of that claim. -/
theorem claim1_code_panics :
    comparePaths ["a", "{id}"] ["a", "5"] [paramIdInt] "/a/5" = none ∧
      FindPath "GET" "/a/5" docShortSeg = none := by
  decide

/-- Claim C2: the code applies a parameter type check to a literal
segment.  The brace-stripping `seg[1:len(seg)-1]` is executed for every
segment, so the literal segment `abc` yields the name `b`; the path
parameter named `b` (declared `integer`) is then found and its check
replaces the literal with the sentinel, so template `/abc/{n}` fails to
match the request `/abc/zz` although the literal segments are equal and
the placeholder value conforms to `n`'s declared `string` type — the
claim says literal segments are never subjected to a type check. -/
theorem claim2_literal_segment_type_checked :
    stripEnds "abc" = "b" ∧
      comparePaths ["abc", "{n}"] ["abc", "zz"] paramsClash "/abc/zz" = some (false, []) ∧
      FindPath "GET" "/abc/zz" docClash = some (none, [missingError "/abc/zz"], "") := by
  decide

/-- Claim C3, counterexample: a request segment equal to the sentinel
token `&&FAIL&&` does not conform to the declared `integer` type of `id`
(it does not parse as a float), yet the template `/items/{id}` matches it:
the type check replaces the value with the sentinel, which is the value
itself, so the final equality succeeds. -/
theorem claim3_counterexample :
    parseFloatOk FailToken = false ∧
      comparePaths ["items", "{id}"] ["items", FailToken] [paramIdInt]
        "/items/&&FAIL&&" = some (true, []) ∧
      FindPath "GET" "/items/&&FAIL&&" docItems =
        some (some itemsItem, [], "/items/{id}") := by
  decide

/-- Claim C5, counterexample: the request `GET /pets/mine` is
byte-identical to the declared template `/pets/mine`, which has a GET
operation, yet resolution returns the entry of `/pets/{petId}` (declared
earlier in iteration order, its string-typed placeholder structurally
matches first) and a matched template different from the request path. -/
theorem claim5_counterexample :
    ("/pets/mine", petsMineItem) ∈ docPets.PathItems ∧
      operationFor "GET" petsMineItem = some { Parameters := [] } ∧
      FindPath "GET" "/pets/mine" docPets =
        some (some petsIdItem, [], "/pets/{petId}") ∧
      ("/pets/{petId}" : String) ≠ "/pets/mine" ∧ petsIdItem ≠ petsMineItem := by
  decide

/-- Claim C6: when the segment counts differ, `comparePaths` rejects the
template immediately with no match and no errors, for every parameter
list and path — in particular no parameter spec is consulted and no type
check (or panic) can occur. -/
theorem claim6_length_mismatch (mapped requested : List String)
    (params : List Parameter) (path : String)
    (h : mapped.length ≠ requested.length) :
    comparePaths mapped requested params path = some (false, []) := by
  rw [comparePaths, if_pos h]

/-- Witness for C6 at the spec's own example: the one-segment template
`/a` against the two-segment request `/a/b`, with a path-located
parameter present (whose type check would otherwise run, and whose
one-character segment would otherwise panic). -/
theorem claim6_length_mismatch_witness :
    comparePaths ["a"] ["a", "b"] [paramIdInt] "/a/b" = some (false, []) :=
  claim6_length_mismatch ["a"] ["a", "b"] [paramIdInt] "/a/b" (by decide)

/-- Claim C8, counterexample: the same contract entries iterated in two
different orders (as Go map iteration may do across calls) resolve
`GET /pets/mine` to different results — each order returns its first
structurally matching template. -/
theorem claim8_counterexample :
    docPets.PathItems.Perm docPetsRev.PathItems ∧
      FindPath "GET" "/pets/mine" docPets ≠ FindPath "GET" "/pets/mine" docPetsRev := by
  refine ⟨List.Perm.swap _ _ _, ?_⟩
  decide

/-- Claim C9, counterexample: on a contract whose path map has the empty
string as a key, resolution of `GET ""` returns a non-null operation
entry together with an empty matched-template string. -/
theorem claim9_counterexample :
    FindPath "GET" "" docEmptyKey = some (some emptyKeyItem, [], "") := by
  decide

/-- Claim C10: the final equality of `comparePaths` goes through
`filepath.Join`, which cleans `..` components; the template `/a/../c` and
the request `/x/../c` have different literal segments yet both join to
`c`, so `comparePaths` reports a structural match. -/
theorem claim10_join_clean_match :
    comparePaths ["a", "..", "c"] ["x", "..", "c"] [] "/x/../c" = some (true, []) ∧
      (["a", "..", "c"] : List String) ≠ ["x", "..", "c"] := by
  decide

/-- A method outside the eight `switch` cases selects no operation. -/
theorem operationFor_unknown {method : String} (item : PathItem)
    (h : method ∉ (["GET", "POST", "PUT", "DELETE", "OPTIONS", "HEAD",
      "PATCH", "TRACE"] : List String)) :
    operationFor method item = none := by
  simp only [List.mem_cons, List.not_mem_nil, or_false, not_or] at h
  obtain ⟨h1, h2, h3, h4, h5, h6, h7, h8⟩ := h
  simp [operationFor, h1, h2, h3, h4, h5, h6, h7, h8]

/-- Inverting a successful resolution: the template loop returned exactly
that entry. -/
theorem FindPath_some_inv {method urlPath : String} {d : Document}
    {item : PathItem} {errs : List ValidationError} {fp : String}
    (h : FindPath method urlPath d = some (some item, errs, fp)) :
    findLoop method urlPath (dropLeadingEmpty (splitSlash urlPath)) d.PathItems =
      some (some (item, errs, fp)) := by
  unfold FindPath at h
  cases hfl : findLoop method urlPath (dropLeadingEmpty (splitSlash urlPath))
      d.PathItems with
  | none => rw [hfl] at h; cases h
  | some o =>
    cases o with
    | none =>
      rw [hfl] at h
      simp only [Option.some.injEq, Prod.mk.injEq] at h
      exact absurd h.1 (by simp)
    | some trip =>
      obtain ⟨item', errs', fp'⟩ := trip
      rw [hfl] at h
      simp only [Option.some.injEq, Prod.mk.injEq] at h
      obtain ⟨hi, he, hf⟩ := h
      subst hi; subst he; subst hf
      rfl

/-- Inverting a null resolution: the template loop fell through, and the
result carries the single missing-path error and an empty found path. -/
theorem FindPath_none_inv {method urlPath : String} {d : Document}
    {errs : List ValidationError} {fp : String}
    (h : FindPath method urlPath d = some (none, errs, fp)) :
    findLoop method urlPath (dropLeadingEmpty (splitSlash urlPath)) d.PathItems =
        some none ∧
      errs = [missingError urlPath] ∧ fp = "" := by
  unfold FindPath at h
  cases hfl : findLoop method urlPath (dropLeadingEmpty (splitSlash urlPath))
      d.PathItems with
  | none => rw [hfl] at h; cases h
  | some o =>
    cases o with
    | none =>
      rw [hfl] at h
      simp only [Option.some.injEq, Prod.mk.injEq] at h
      exact ⟨rfl, h.2.1.symm, h.2.2.symm⟩
    | some trip =>
      obtain ⟨item', errs', fp'⟩ := trip
      rw [hfl] at h
      simp only [Option.some.injEq, Prod.mk.injEq] at h
      exact absurd h.1 (by simp)

/-- Claim C3, amended: for the template `/items/{id}` with its path
parameter `id` declared `integer`, and any candidate segment value that
is a plain path component (nonempty, slash-free, not `.` or `..`) other
than the sentinel token `&&FAIL&&`, the structural match succeeds exactly
when the value parses as a float: type-conforming values match and
non-conforming values do not. -/
theorem claim3_amended (v : String) (h0 : v ≠ "") (hs : '/' ∉ v.data)
    (h1 : v ≠ ".") (h2 : v ≠ "..") (hf : v ≠ FailToken) :
    comparePaths ["items", "{id}"] ["items", v] [paramIdInt] ("/items/" ++ v) =
      some (parseFloatOk v, []) := by
  have hset : comparePaths ["items", "{id}"] ["items", v] [paramIdInt]
      ("/items/" ++ v) =
      (if goJoin ["items", if parseFloatOk v then v else FailToken] =
          goJoin ["items", v]
        then some (true, []) else some (false, [])) := rfl
  rw [hset]
  cases hpf : parseFloatOk v with
  | true => simp only [hpf, if_pos rfl, if_true]
  | false =>
    have hj1 : goJoin ["items", FailToken] = "items" ++ "/" ++ FailToken :=
      goJoin_pair (by decide) (by decide) (by decide) (by decide)
        (by decide) (by decide) (by decide) (by decide)
    have hj2 : goJoin ["items", v] = "items" ++ "/" ++ v :=
      goJoin_pair (by decide) h0 (by decide) hs (by decide) (by decide) h1 h2
    have hne : goJoin ["items", FailToken] ≠ goJoin ["items", v] := by
      rw [hj1, hj2]
      intro hcontra
      exact hf (string_append_right_inj hcontra).symm
    rw [if_neg Bool.false_ne_true, if_neg hne]

/-- Witness for the amended C3 at the spec's example values: `42`
conforms to the declared `integer` type and `/items/42` matches. -/
theorem claim3_amended_witness :
    parseFloatOk "42" = true ∧
      comparePaths ["items", "{id}"] ["items", "42"] [paramIdInt]
        ("/items/" ++ "42") = some (true, []) := by
  have h := claim3_amended "42" (by decide) (by decide) (by decide)
    (by decide) (by decide)
  have h42 : parseFloatOk "42" = true := by decide
  rw [h42] at h
  exact ⟨h42, h⟩

/-- Claim C4: whenever resolution returns a null operation entry, the
matched-template string is empty and the error list is exactly the one
missing-path error: validation type `path`, subtype `missing`, message
and reason containing the requested path verbatim, and the sentinel
source location `(-1, -1)`. -/
theorem claim4_missing_error (method urlPath : String) (d : Document)
    (errs : List ValidationError) (fp : String)
    (h : FindPath method urlPath d = some (none, errs, fp)) :
    fp = "" ∧ errs = [missingError urlPath] ∧
      (missingError urlPath).ValidationType = "path" ∧
      (missingError urlPath).ValidationSubType = "missing" ∧
      (∃ a b, (missingError urlPath).Message = a ++ urlPath ++ b) ∧
      (∃ a b, (missingError urlPath).Reason = a ++ urlPath ++ b) ∧
      (missingError urlPath).SpecLine = -1 ∧
      (missingError urlPath).SpecCol = -1 := by
  obtain ⟨-, he, hf⟩ := FindPath_none_inv h
  refine ⟨hf, he, rfl, rfl, ?_, ?_, rfl, rfl⟩
  · exact ⟨"Path " ++ (⟨[Char.ofNat 39]⟩ : String),
      (⟨[Char.ofNat 39]⟩ : String) ++ " not found",
      String.append_assoc _ _ _⟩
  · exact ⟨"The request contains a path of " ++ (⟨[Char.ofNat 39]⟩ : String),
      (⟨[Char.ofNat 39]⟩ : String) ++
        " however that path does not exist in the specification",
      String.append_assoc _ _ _⟩

/-- Witness for C4 at a concrete no-match resolution (`GET /nope` against
the two-template pets contract). -/
theorem claim4_missing_error_witness :
    ("" : String) = "" ∧ [missingError "/nope"] = [missingError "/nope"] ∧
      (missingError "/nope").ValidationType = "path" ∧
      (missingError "/nope").ValidationSubType = "missing" ∧
      (∃ a b, (missingError "/nope").Message = a ++ "/nope" ++ b) ∧
      (∃ a b, (missingError "/nope").Reason = a ++ "/nope" ++ b) ∧
      (missingError "/nope").SpecLine = -1 ∧
      (missingError "/nope").SpecCol = -1 :=
  claim4_missing_error "GET" "/nope" docPets [missingError "/nope"] ""
    (by decide)

/-- Claim C5, amended: if the request path is byte-identical to a
declared template whose item has an operation for the request method, and
every template earlier in iteration order is skipped (no operation for
the method, or not byte-identical and a clean structural no-match), then
resolution succeeds with that entry, zero errors, and the matched
template equal to the request path. -/
theorem claim5_amended (method urlPath : String) (d : Document)
    (pre rest : List (String × PathItem)) (item : PathItem)
    (hd : d.PathItems = pre ++ (urlPath, item) :: rest)
    (hskip : ∀ e ∈ pre,
      skipsEntry method urlPath (dropLeadingEmpty (splitSlash urlPath)) e)
    (op : Operation) (hop : operationFor method item = some op) :
    FindPath method urlPath d = some (some item, [], urlPath) := by
  have hstep : findLoop method urlPath (dropLeadingEmpty (splitSlash urlPath))
      ((urlPath, item) :: rest) = some (some (item, [], urlPath)) := by
    simp [findLoop, hop]
  have hpre : ∀ l : List (String × PathItem),
      (∀ e ∈ l,
        skipsEntry method urlPath (dropLeadingEmpty (splitSlash urlPath)) e) →
      findLoop method urlPath (dropLeadingEmpty (splitSlash urlPath))
        (l ++ (urlPath, item) :: rest) = some (some (item, [], urlPath)) := by
    intro l
    induction l with
    | nil => intro _; simpa using hstep
    | cons e l' ih =>
      intro hs
      rw [List.cons_append, findLoop_cons_skip (hs e (List.mem_cons_self e l'))]
      exact ih fun e' he' => hs e' (List.mem_cons_of_mem _ he')
  unfold FindPath
  rw [hd, hpre pre hskip]

/-- Witness for the amended C5: in a contract whose first template has no
GET operation, `GET /pets/mine` literal-matches the second template. -/
theorem claim5_amended_witness :
    FindPath "GET" "/pets/mine" docSkipThenLiteral =
      some (some petsMineItem, [], "/pets/mine") :=
  claim5_amended "GET" "/pets/mine" docSkipThenLiteral
    [("/zz", noGetItem)] [] petsMineItem rfl
    (by
      intro e he
      simp only [List.mem_singleton] at he
      subst he
      simp [skipsEntry, operationFor, noGetItem])
    { Parameters := [] } rfl

/-- Claim C7: resolution returns a non-null entry only when the matched
item defines an operation for the request method, and a request whose
method is outside the eight HTTP method constants never matches any
template — it falls through to the single missing-path error. -/
theorem claim7_method_gate (method urlPath : String) (d : Document) :
    (∀ item errs fp, FindPath method urlPath d = some (some item, errs, fp) →
        operationFor method item ≠ none) ∧
      (method ∉ (["GET", "POST", "PUT", "DELETE", "OPTIONS", "HEAD", "PATCH",
          "TRACE"] : List String) →
        FindPath method urlPath d = some (none, [missingError urlPath], "")) := by
  constructor
  · intro item errs fp h
    exact (findLoop_found (FindPath_some_inv h)).2
  · intro hm
    have hskip : ∀ e ∈ d.PathItems,
        skipsEntry method urlPath (dropLeadingEmpty (splitSlash urlPath)) e := by
      intro e _
      simp [skipsEntry, operationFor_unknown e.2 hm]
    have hfl := findLoop_eq_skipAll.mpr hskip
    unfold FindPath
    rw [hfl]

/-- Witness for C7: the unmatched method `BREW` falls through to the
missing-path error on the pets contract, and the successful `GET` match
on the same contract has a GET operation. -/
theorem claim7_method_gate_witness :
    FindPath "BREW" "/pets/mine" docPets =
        some (none, [missingError "/pets/mine"], "") ∧
      operationFor "GET" petsIdItem ≠ none :=
  ⟨(claim7_method_gate "BREW" "/pets/mine" docPets).2 (by decide),
    (claim7_method_gate "GET" "/pets/mine" docPets).1 petsIdItem []
      "/pets/{petId}" (by decide)⟩

/-- Claim C8, amended: resolution is a function of the method, the path,
and the iteration order, so equal orders give equal results; moreover the
no-match outcome is order-independent: if resolution under one iteration
order of the contract entries returns a null entry, then under every
iteration order of the same entries it returns the same null entry, the
single missing-path error, and the empty matched template.  (Which
template is matched, by contrast, does depend on the order — see the
counterexample.) -/
theorem claim8_amended (method urlPath : String) (d1 d2 : Document)
    (hperm : d1.PathItems.Perm d2.PathItems)
    (errs : List ValidationError) (fp : String)
    (h : FindPath method urlPath d1 = some (none, errs, fp)) :
    FindPath method urlPath d2 = some (none, [missingError urlPath], "") := by
  obtain ⟨hfl, -, -⟩ := FindPath_none_inv h
  have hall := findLoop_eq_skipAll.mp hfl
  have hall2 : ∀ e ∈ d2.PathItems,
      skipsEntry method urlPath (dropLeadingEmpty (splitSlash urlPath)) e :=
    fun e he => hall e (hperm.mem_iff.mpr he)
  have hfl2 := findLoop_eq_skipAll.mpr hall2
  unfold FindPath
  rw [hfl2]

/-- Witness for the amended C8: `GET /nope` misses under both iteration
orders of the pets contract. -/
theorem claim8_amended_witness :
    FindPath "GET" "/nope" docPetsRev = some (none, [missingError "/nope"], "") :=
  claim8_amended "GET" "/nope" docPets docPetsRev (List.Perm.swap _ _ _)
    [missingError "/nope"] "" (by decide)

/-- Claim C9, amended: when resolution returns a non-null operation
entry, the matched-template string paired with that entry is one of the
contract's path-map entries (hence the string is a key of the map), and
it is non-empty provided every key of the map is non-empty. -/
theorem claim9_amended (method urlPath : String) (d : Document)
    (item : PathItem) (errs : List ValidationError) (fp : String)
    (h : FindPath method urlPath d = some (some item, errs, fp)) :
    (fp, item) ∈ d.PathItems ∧ ((∀ e ∈ d.PathItems, e.1 ≠ "") → fp ≠ "") := by
  have hmem := (findLoop_found (FindPath_some_inv h)).1
  exact ⟨hmem, fun hne => hne _ hmem⟩

/-- Witness for the amended C9 at the successful `GET /pets/mine`
resolution of the pets contract. -/
theorem claim9_amended_witness :
    ("/pets/{petId}", petsIdItem) ∈ docPets.PathItems ∧
      ("/pets/{petId}" : String) ≠ "" :=
  have h := claim9_amended "GET" "/pets/mine" docPets petsIdItem []
    "/pets/{petId}" (by decide)
  ⟨h.1, h.2 (by decide)⟩

end Paths
